import Mathlib

/-!
Verification of `smsframework/providers/forward/provider.py`.

The module under study implements a forwarding bridge between two SMS-gateway
instances: a JSON-over-HTTP RPC helper (`jsonex_request`), a view decorator
(`jsonex_api`), a client-side plugin (`ForwardClientProvider`) and a
server-side plugin (`ForwardServerProvider`), plus the two codec registries
(`classes` and `exceptions`).

Modelling conventions:
* Python objects are attribute dictionaries (`Fields`); object identity is an
  index into a `Heap`, so "returns the same object" is provable.
* The jsonex codec itself lives in the external `.jsonex` module (not part of
  this file's source), so encoding/decoding is absorbed into the transport
  oracle `Net`: the oracle maps a URL and an (already decoded) payload map to
  an `HttpOutcome` whose bodies are already decoded maps.
* Functions that perform RPC also return the list of requests they issued, so
  that fan-out order and "no call happened" are provable.
-/

set_option autoImplicit false
set_option linter.unusedVariables false

namespace Smsframework

/-- Scalar attribute value of a framework domain object: either Python `None`
or an opaque scalar rendered as a string. -/
inductive FVal where
  | none
  | str (s : String)
deriving DecidableEq, Repr

/-- Attribute dictionary (`obj.__dict__`) of a framework domain object. -/
abbrev Fields := List (String × FVal)

/-- Python exception values that the forward provider raises or transports. -/
inductive Exc where
  | connectionError (msg : String)
  | serverError (msg : String)
  | assertionError (msg : String)
  | keyError (key : String)
  | other (name : String) (msg : String)
deriving DecidableEq, Repr

/-- Decoded JSON values: an exception, a scalar, a decoded domain object with
its attribute dict, or a plain map whose values are exceptions (the shape of
the `error` envelope). -/
inductive Val where
  | vexc (e : Exc)
  | vstr (s : String)
  | vobj (fields : Fields)
  | vmap (entries : List (String × Exc))
deriving DecidableEq, Repr

/-- Dictionary access: the value at key `k`, if present. -/
def dget {α : Type} (k : String) : List (String × α) → Option α
  | [] => Option.none
  | (k', v) :: rest => if k' = k then some v else dget k rest

/-- A decoded JSON map (the result of `jsonex_loads` on a response body). -/
abbrev ResMap := List (String × Val)

/-- Outcome of the underlying `urllib2.urlopen` call. Bodies appear already
passed through `jsonex_loads`, since the codec is external to this module. -/
inductive HttpOutcome where
  | success (res : ResMap)
  | httpError (headers : List (String × String)) (res : ResMap) (msg : String)
  | urlError (msg : String)

/-- A network oracle: what the remote side answers for each URL and payload. -/
abbrev Net := String → ResMap → HttpOutcome

/-- The try-block of `jsonex_request`: perform the POST, decode the body.
An HTTP error response with `Content-Type: application/json` is decoded like a
success; any other HTTP error raises `ServerError`; a transport failure raises
`ConnectionError`. -/
def jsonex_fetch (net : Net) (url : String) (data : ResMap) : Except Val ResMap :=
  match net url data with
  | .success res => .ok res
  | .httpError headers res msg =>
      if dget "Content-Type" headers = some "application/json" then
        .ok res
      else
        .error (.vexc (.serverError ("Server at \"" ++ url ++ "\" failed: " ++ msg)))
  | .urlError msg =>
      .error (.vexc (.connectionError ("Connection to \"" ++ url ++ "\" failed: " ++ msg)))

/-- The tail of `jsonex_request`: if the decoded map carries an `error` key,
raise that value, otherwise return the map. -/
def check_error (res : ResMap) : Except Val ResMap :=
  match dget "error" res with
  | some v => .error v
  | Option.none => .ok res

/-- Model of `jsonex_request(url, data)`: fetch, then apply the error
protocol. -/
def jsonex_request (net : Net) (url : String) (data : ResMap) : Except Val ResMap :=
  (jsonex_fetch net url data).bind check_error

/-- Heap of framework objects; a reference is an index into the heap. -/
abbrev Heap := List Fields

/-- Dereference a heap reference. -/
def heapGet (h : Heap) (r : Nat) : Fields := h.getD r []

/-- Overwrite the object at a heap reference. -/
def heapSet (h : Heap) (r : Nat) (f : Fields) : Heap := h.set r f

/-- Python `setattr` on an attribute dict (whose keys are unique): replace the
attribute if present, else append it. -/
def setattr : Fields → String → FVal → Fields
  | [], k, v => [(k, v)]
  | (k', w) :: rest, k, v =>
      if k' = k then (k, v) :: rest else (k', w) :: setattr rest k v

/-- Python `for k, v in src.items(): setattr(dst, k, v)`. -/
def setattrs (dst : Fields) (src : Fields) : Fields :=
  src.foldl (fun acc kv => setattr acc kv.1 kv.2) dst

/-- One outbound RPC request: target URL and (decoded view of the) payload. -/
structure Request where
  url : String
  payload : ResMap
deriving DecidableEq, Repr

/-- Forwarding client provider: holds the server base URL. -/
structure ForwardClientProvider where
  server_url : String

/-- Model of `ForwardClientProvider.send(message)`: POST the message to
`server_url + "/im"` wrapped as `{"message": message}`, take the object under
the response's `"message"` key, copy each of its attributes onto the original
message object via `setattr`, and return the original reference. Also returns
the list of RPC requests issued. -/
def ForwardClientProvider.send (p : ForwardClientProvider) (net : Net) (heap : Heap)
    (message : Nat) : Except Val (Nat × Heap) × List Request :=
  let url := p.server_url ++ "/im"
  let payload : ResMap := [("message", Val.vobj (heapGet heap message))]
  let log : List Request := [⟨url, payload⟩]
  match jsonex_request net url payload with
  | .error e => (.error e, log)
  | .ok res =>
      match dget "message" res with
      | some (Val.vobj msg) =>
          (.ok (message, heapSet heap message (setattrs (heapGet heap message) msg)), log)
      | some _ => (.error (.vexc (.other "AttributeError" "__dict__")), log)
      | Option.none => (.error (.vexc (.keyError "message")), log)

/-- Objects that can be handed to the server provider's forwarding path: an
incoming message, a message status (any variant), or an object of any other
runtime type carrying its display string. -/
inductive FwdObj where
  | incoming (fields : Fields)
  | status (fields : Fields)
  | other (shown : String)

/-- Whether the object passes the `isinstance(obj, (IncomingMessage,
MessageStatus))` assertion of `_forward_object_to_client`. -/
def FwdObj.isSupported : FwdObj → Bool
  | .other _ => false
  | _ => true

/-- Forwarding server provider: holds the ordered list of client base URLs. -/
structure ForwardServerProvider where
  clients : List String

/-- Model of `ForwardServerProvider.choose_clients(obj)`: the default policy
ignores the object and returns all registered clients in list order. -/
def ForwardServerProvider.choose_clients (p : ForwardServerProvider) (obj : FwdObj) :
    List String :=
  p.clients

/-- Shared RPC tail of `_forward_object_to_client`: POST the object under the
given envelope key and return the echoed object from the response. -/
def rpc_echo (net : Net) (url : String) (key : String) (fields : Fields) : Except Val Val :=
  match jsonex_request net url [(key, Val.vobj fields)] with
  | .error e => .error e
  | .ok res =>
      match dget key res with
      | some v => .ok v
      | Option.none => .error (.vexc (.keyError key))

/-- Model of `ForwardServerProvider._forward_object_to_client(client, obj)`:
assert the object is an incoming message or a status, pick `"/im"`/`"message"`
for a message and `"/status"`/`"status"` for a status, POST to the client and
return the echoed object. Also returns the list of RPC requests issued. -/
def ForwardServerProvider.forward_object_to_client (net : Net) (client : String)
    (obj : FwdObj) : Except Val Val × List Request :=
  match obj with
  | .other shown =>
      (.error (.vexc (.assertionError
        ("Tried to forward an object of an unsupported type: " ++ shown))), [])
  | .incoming fields =>
      (rpc_echo net (client ++ "/im") "message" fields,
       [⟨client ++ "/im", [("message", Val.vobj fields)]⟩])
  | .status fields =>
      (rpc_echo net (client ++ "/status") "status" fields,
       [⟨client ++ "/status", [("status", Val.vobj fields)]⟩])

/-- The loop body of `ForwardServerProvider.forward`: forward the object to
each client in order, stopping at the first failure. -/
def forwardLoop (net : Net) (obj : FwdObj) : List String → Except Val Unit × List Request
  | [] => (.ok (), [])
  | c :: rest =>
      match ForwardServerProvider.forward_object_to_client net c obj with
      | (.error e, log) => (.error e, log)
      | (.ok _, log) =>
          let r := forwardLoop net obj rest
          (r.1, log ++ r.2)

/-- Model of `ForwardServerProvider.forward(obj)`: forward the object to every
client chosen by `choose_clients`, sequentially in list order. -/
def ForwardServerProvider.forward (p : ForwardServerProvider) (net : Net) (obj : FwdObj) :
    Except Val Unit × List Request :=
  forwardLoop net obj (p.choose_clients obj)

/-- Model of `ForwardServerProvider.send(message)`: set the message's
`provider` attribute to `None`, then hand the same message reference to the
owning gateway's `send` and return its result. The gateway is abstract: any
function of the updated heap and the message reference. -/
def ForwardServerProvider.send {α : Type} (gateway_send : Heap → Nat → α) (heap : Heap)
    (message : Nat) : α :=
  gateway_send (heapSet heap message (setattr (heapGet heap message) "provider" FVal.none))
    message

/-- Outcome of calling the view function wrapped by `jsonex_api`: a normal
return, a werkzeug `HTTPException` carrying its own status code, or any other
exception. -/
inductive CallOutcome where
  | ok (v : Val)
  | httpExc (code : Nat) (e : Exc)
  | exc (e : Exc)

/-- An HTTP response as built by `make_response` plus the header assignment. -/
structure HttpResponse where
  body : String
  code : Nat
  contentType : String
deriving DecidableEq, Repr

/-- Model of the `jsonex_api` view wrapper, over an abstract encoder standing
for `jsonex_dumps` (the codec is external to this module). Returns the
response and whether `logger.exception` was called. -/
def jsonex_api (dumps : Val → String) (outcome : CallOutcome) : HttpResponse × Bool :=
  let t : Nat × Val × Bool :=
    match outcome with
    | .ok v => (200, v, false)
    | .httpExc code e => (code, Val.vmap [("error", e)], false)
    | .exc e => (500, Val.vmap [("error", e)], true)
  ({ body := dumps t.2.1, code := t.1, contentType := "application/json" }, t.2.2)

/-- The names registered in the domain-class registry `classes` (each class is
keyed by `C.__name__`), in source order. -/
def classes : List String :=
  ["IncomingMessage", "OutgoingMessage",
   "OutgoingMessageOptions",
   "MessageStatus", "MessageAccepted", "MessageDelivered", "MessageExpired", "MessageError"]

/-- The names registered in the exception-class registry `exceptions` (each
class is keyed by `E.__name__`), in source order. -/
def exceptions : List String :=
  ["ProviderError", "ConnectionError",
   "MessageSendError", "RequestError", "UnsupportedError", "ServerError", "AuthError",
   "LimitsError", "CreditError"]

/-- Modelled from the spec: the data-model classes of section 3 that may cross
the wire (IncomingMessage, OutgoingMessage, OutgoingMessageOptions, the
MessageStatus variants, ProviderError and its subtypes). The classes
themselves live in the external host framework. -/
def dataModelClassNames : List String :=
  ["IncomingMessage", "OutgoingMessage", "OutgoingMessageOptions",
   "MessageStatus", "MessageAccepted", "MessageDelivered", "MessageExpired", "MessageError",
   "ProviderError", "ConnectionError", "MessageSendError", "RequestError",
   "UnsupportedError", "ServerError", "AuthError", "LimitsError", "CreditError"]

/-- Whether an RPC-producing call returned normally. -/
def callOk {ε α : Type} : Except ε α → Bool
  | .ok _ => true
  | .error _ => false

/-- The single RPC request that forwarding a supported object to a client
issues (junk value on unsupported objects, which never reach the RPC). -/
def clientRequest (client : String) : FwdObj → Request
  | .incoming f => ⟨client ++ "/im", [("message", Val.vobj f)]⟩
  | .status f => ⟨client ++ "/status", [("status", Val.vobj f)]⟩
  | .other _ => ⟨client, []⟩

theorem dget_setattr_self (fs : Fields) (k : String) (v : FVal) :
    dget k (setattr fs k v) = some v := by
  induction fs with
  | nil => simp [setattr, dget]
  | cons kv rest ih =>
      obtain ⟨k', w⟩ := kv
      by_cases h : k' = k
      · subst h
        simp [setattr, dget]
      · simp [setattr, dget, h, ih]

theorem dget_setattr_other (fs : Fields) (k k' : String) (v : FVal) (hne : k' ≠ k) :
    dget k' (setattr fs k v) = dget k' fs := by
  induction fs with
  | nil => simp [setattr, dget, Ne.symm hne]
  | cons kv rest ih =>
      obtain ⟨k'', w⟩ := kv
      by_cases h : k'' = k
      · subst h
        simp [setattr, dget, Ne.symm hne]
      · by_cases h' : k'' = k'
        · subst h'
          simp [setattr, dget, h]
        · simp [setattr, dget, h, h', ih]

theorem dget_eq_none_of_not_mem {α : Type} (k : String) (l : List (String × α))
    (h : k ∉ l.map Prod.fst) : dget k l = Option.none := by
  induction l with
  | nil => simp [dget]
  | cons kv rest ih =>
      obtain ⟨k', v⟩ := kv
      simp only [List.map_cons, List.mem_cons] at h
      push_neg at h
      simp [dget, Ne.symm h.1, ih h.2]

theorem dget_setattrs_of_none (dst src : Fields) (k : String)
    (h : dget k src = Option.none) : dget k (setattrs dst src) = dget k dst := by
  induction src generalizing dst with
  | nil => simp [setattrs]
  | cons kv rest ih =>
      obtain ⟨k0, v0⟩ := kv
      simp only [dget] at h
      by_cases hk : k0 = k
      · simp [hk] at h
      · rw [if_neg hk] at h
        have : setattrs dst ((k0, v0) :: rest) = setattrs (setattr dst k0 v0) rest := rfl
        rw [this, ih (setattr dst k0 v0) h, dget_setattr_other dst k0 k v0 (Ne.symm hk)]

theorem dget_setattrs_of_some (dst src : Fields) (k : String) (v : FVal)
    (hnd : (src.map Prod.fst).Nodup) (h : dget k src = some v) :
    dget k (setattrs dst src) = some v := by
  induction src generalizing dst with
  | nil => simp [dget] at h
  | cons kv rest ih =>
      obtain ⟨k0, v0⟩ := kv
      simp only [List.map_cons, List.nodup_cons] at hnd
      simp only [dget] at h
      have hstep : setattrs dst ((k0, v0) :: rest) = setattrs (setattr dst k0 v0) rest := rfl
      by_cases hk : k0 = k
      · rw [if_pos hk] at h
        subst hk
        have hrest : dget k0 rest = Option.none := dget_eq_none_of_not_mem k0 rest hnd.1
        rw [hstep, dget_setattrs_of_none (setattr dst k0 v0) rest k0 hrest,
          dget_setattr_self, h]
      · rw [if_neg hk] at h
        rw [hstep]
        exact ih (setattr dst k0 v0) hnd.2 h

/-- C7: `ForwardServerProvider.send` sets the message's `provider` attribute
to `None` (even if one was already set) before handing the very same message
reference to the owning gateway's send, and returns that gateway call's
result. -/
theorem server_send_spec {α : Type} (gateway_send : Heap → Nat → α) (heap : Heap) (m : Nat) :
    ForwardServerProvider.send gateway_send heap m =
      gateway_send (heapSet heap m (setattr (heapGet heap m) "provider" FVal.none)) m
    ∧ dget "provider" (setattr (heapGet heap m) "provider" FVal.none) = some FVal.none :=
  ⟨rfl, dget_setattr_self (heapGet heap m) "provider" FVal.none⟩

/-- C4: the `jsonex_api` wrapper yields the encoded return value with status
200 on a normal return; the encoded map with the error under `error` and the
exception's own status code for an HTTPException; and the encoded error map
with status 500 plus a log entry for any other exception — in all three cases
with content type `application/json`. -/
theorem jsonex_api_spec (dumps : Val → String) :
    (∀ v, jsonex_api dumps (.ok v) =
      ({ body := dumps v, code := 200, contentType := "application/json" }, false))
    ∧ (∀ code e, jsonex_api dumps (.httpExc code e) =
      ({ body := dumps (Val.vmap [("error", e)]), code := code,
         contentType := "application/json" }, false))
    ∧ (∀ e, jsonex_api dumps (.exc e) =
      ({ body := dumps (Val.vmap [("error", e)]), code := 500,
         contentType := "application/json" }, true)) :=
  ⟨fun _ => rfl, fun _ _ => rfl, fun _ => rfl⟩

/-- C9: every class of the spec's data model appears in exactly one of the
two codec registries under its class name; within each registry no two
entries share a name, and no name is present in both registries. -/
theorem registries_partition :
    (∀ n ∈ dataModelClassNames,
      (n ∈ classes ∧ n ∉ exceptions) ∨ (n ∈ exceptions ∧ n ∉ classes))
    ∧ classes.Nodup
    ∧ exceptions.Nodup
    ∧ (∀ n ∈ classes, n ∉ exceptions) := by
  decide

/-- C2: for a response map decoded by `jsonex_request` — from a successful
HTTP response or from the JSON-typed body of an HTTP error response — the
presence of an `error` key makes `jsonex_request` raise that decoded value,
and its absence makes `jsonex_request` return the map. -/
theorem jsonex_request_error_protocol (net : Net) (url : String) (data res : ResMap)
    (h : net url data = .success res ∨
         ∃ headers msg, net url data = .httpError headers res msg ∧
           dget "Content-Type" headers = some "application/json") :
    (∀ v, dget "error" res = some v → jsonex_request net url data = .error v)
    ∧ (dget "error" res = Option.none → jsonex_request net url data = .ok res) := by
  have hfetch : jsonex_fetch net url data = .ok res := by
    rcases h with h | ⟨headers, msg, h, hct⟩
    · simp [jsonex_fetch, h]
    · simp [jsonex_fetch, h, hct]
  refine ⟨fun v hv => ?_, fun hv => ?_⟩
  · simp [jsonex_request, hfetch, check_error, hv, Except.bind]
  · simp [jsonex_request, hfetch, check_error, hv, Except.bind]

theorem jsonex_request_error_protocol_witness :
    jsonex_request (fun _ _ => .success [("error", Val.vexc (.other "CreditError" "no credits"))])
      "http://srv/im" [] = .error (Val.vexc (.other "CreditError" "no credits"))
    ∧ jsonex_request (fun _ _ => .success [("message", Val.vstr "ok")]) "http://srv/im" [] =
      .ok [("message", Val.vstr "ok")] :=
  ⟨(jsonex_request_error_protocol
      (fun _ _ => .success [("error", Val.vexc (.other "CreditError" "no credits"))])
      "http://srv/im" [] [("error", Val.vexc (.other "CreditError" "no credits"))]
      (Or.inl rfl)).1 _ (by decide),
   (jsonex_request_error_protocol (fun _ _ => .success [("message", Val.vstr "ok")])
      "http://srv/im" [] [("message", Val.vstr "ok")] (Or.inl rfl)).2 (by decide)⟩

/-- C5: a transport-level failure makes `jsonex_request` raise a
ConnectionError whose message contains the target URL and the underlying
failure message. -/
theorem jsonex_request_connection_error (net : Net) (url : String) (data : ResMap)
    (msg : String) (h : net url data = .urlError msg) :
    jsonex_request net url data =
      .error (Val.vexc (.connectionError ("Connection to \"" ++ url ++ "\" failed: " ++ msg)))
    ∧ (∃ a b, "Connection to \"" ++ url ++ "\" failed: " ++ msg = a ++ (url ++ b))
    ∧ (∃ c, "Connection to \"" ++ url ++ "\" failed: " ++ msg = c ++ msg) := by
  refine ⟨?_,
    ⟨"Connection to \"", "\" failed: " ++ msg, by simp [String.append_assoc]⟩,
    ⟨"Connection to \"" ++ url ++ "\" failed: ", rfl⟩⟩
  simp [jsonex_request, jsonex_fetch, h, Except.bind]

theorem jsonex_request_connection_error_witness :
    jsonex_request (fun _ _ => .urlError "connection refused") "http://srv/im" [] =
      .error (Val.vexc (.connectionError
        ("Connection to \"" ++ "http://srv/im" ++ "\" failed: " ++ "connection refused"))) :=
  (jsonex_request_connection_error (fun _ _ => .urlError "connection refused")
    "http://srv/im" [] "connection refused" rfl).1

/-- C6: an HTTP error response with content type `application/json` is
decoded and processed under the same error-raising protocol as a success
response; any other HTTP error response makes `jsonex_request` raise a
ServerError whose message contains the URL and the underlying message. -/
theorem jsonex_request_http_error (net : Net) (url : String) (data : ResMap)
    (headers : List (String × String)) (res : ResMap) (msg : String)
    (h : net url data = .httpError headers res msg) :
    (dget "Content-Type" headers = some "application/json" →
      (∀ v, dget "error" res = some v → jsonex_request net url data = .error v)
      ∧ (dget "error" res = Option.none → jsonex_request net url data = .ok res))
    ∧ (dget "Content-Type" headers ≠ some "application/json" →
      jsonex_request net url data =
        .error (Val.vexc (.serverError ("Server at \"" ++ url ++ "\" failed: " ++ msg)))
      ∧ (∃ a b, "Server at \"" ++ url ++ "\" failed: " ++ msg = a ++ (url ++ b))
      ∧ (∃ c, "Server at \"" ++ url ++ "\" failed: " ++ msg = c ++ msg)) := by
  constructor
  · intro hct
    have hfetch : jsonex_fetch net url data = .ok res := by
      simp [jsonex_fetch, h, hct]
    exact ⟨fun v hv => by simp [jsonex_request, hfetch, check_error, hv, Except.bind],
           fun hv => by simp [jsonex_request, hfetch, check_error, hv, Except.bind]⟩
  · intro hct
    refine ⟨by simp [jsonex_request, jsonex_fetch, h, hct, Except.bind],
      ⟨"Server at \"", "\" failed: " ++ msg, by simp [String.append_assoc]⟩,
      ⟨"Server at \"" ++ url ++ "\" failed: ", rfl⟩⟩

theorem jsonex_request_http_error_witness :
    jsonex_request
      (fun _ _ => .httpError [("Content-Type", "application/json")]
        [("error", Val.vexc (.other "MessageSendError" "bad"))] "err")
      "http://srv/im" [] = .error (Val.vexc (.other "MessageSendError" "bad"))
    ∧ jsonex_request (fun _ _ => .httpError [("Content-Type", "text/html")] [] "oops")
      "http://srv/im" [] =
      .error (Val.vexc (.serverError
        ("Server at \"" ++ "http://srv/im" ++ "\" failed: " ++ "oops"))) :=
  ⟨((jsonex_request_http_error
      (fun _ _ => .httpError [("Content-Type", "application/json")]
        [("error", Val.vexc (.other "MessageSendError" "bad"))] "err")
      "http://srv/im" [] [("Content-Type", "application/json")]
      [("error", Val.vexc (.other "MessageSendError" "bad"))] "err" rfl).1
      (by decide)).1 _ (by decide),
   ((jsonex_request_http_error (fun _ _ => .httpError [("Content-Type", "text/html")] [] "oops")
      "http://srv/im" [] [("Content-Type", "text/html")] [] "oops" rfl).2
      (by decide)).1⟩

/-- C8: forwarding an incoming message posts to `client + "/im"` with the
object under the `message` key, forwarding a status posts to
`client + "/status"` with the object under the `status` key, and on success
the echoed object reconstructed from the response is returned. -/
theorem forward_object_routing (net : Net) (client : String) (f : Fields) :
    ((ForwardServerProvider.forward_object_to_client net client (.incoming f)).2 =
      [⟨client ++ "/im", [("message", Val.vobj f)]⟩])
    ∧ ((ForwardServerProvider.forward_object_to_client net client (.status f)).2 =
      [⟨client ++ "/status", [("status", Val.vobj f)]⟩])
    ∧ (∀ res v, jsonex_request net (client ++ "/im") [("message", Val.vobj f)] = .ok res →
        dget "message" res = some v →
        (ForwardServerProvider.forward_object_to_client net client (.incoming f)).1 = .ok v)
    ∧ (∀ res v, jsonex_request net (client ++ "/status") [("status", Val.vobj f)] = .ok res →
        dget "status" res = some v →
        (ForwardServerProvider.forward_object_to_client net client (.status f)).1 = .ok v) := by
  refine ⟨rfl, rfl, fun res v hok hv => ?_, fun res v hok hv => ?_⟩
  · simp [ForwardServerProvider.forward_object_to_client, rpc_echo, hok, hv]
  · simp [ForwardServerProvider.forward_object_to_client, rpc_echo, hok, hv]

theorem forward_object_routing_witness :
    (ForwardServerProvider.forward_object_to_client (fun _ p => .success p) "http://c1"
      (.incoming [("from", FVal.str "123")])).1 = .ok (Val.vobj [("from", FVal.str "123")]) :=
  (forward_object_routing (fun _ p => .success p) "http://c1" [("from", FVal.str "123")]).2.2.1
    [("message", Val.vobj [("from", FVal.str "123")])] (Val.vobj [("from", FVal.str "123")])
    rfl (by decide)

/-- C10: an object that is neither an incoming message nor a status fails the
type assertion — raising an assertion error naming the object — before any
RPC request is issued; a supported object always reaches the RPC, so the
assertion branch is unreachable for the two supported types. -/
theorem forward_object_assertion (net : Net) (client : String) :
    (∀ shown, ForwardServerProvider.forward_object_to_client net client (.other shown) =
      (.error (Val.vexc (.assertionError
        ("Tried to forward an object of an unsupported type: " ++ shown))), []))
    ∧ (∀ obj : FwdObj, obj.isSupported = true →
        (ForwardServerProvider.forward_object_to_client net client obj).2 ≠ []) := by
  refine ⟨fun shown => rfl, fun obj hobj => ?_⟩
  cases obj with
  | incoming f => simp [ForwardServerProvider.forward_object_to_client]
  | status f => simp [ForwardServerProvider.forward_object_to_client]
  | other s => simp [FwdObj.isSupported] at hobj

theorem forward_object_assertion_witness :
    ForwardServerProvider.forward_object_to_client (fun _ _ => .urlError "x") "http://c1"
      (.other "<OutgoingMessage>") =
      (.error (Val.vexc (.assertionError
        ("Tried to forward an object of an unsupported type: " ++ "<OutgoingMessage>"))), [])
    ∧ (ForwardServerProvider.forward_object_to_client (fun _ _ => .urlError "x") "http://c1"
        (.incoming [])).2 ≠ [] :=
  ⟨(forward_object_assertion (fun _ _ => .urlError "x") "http://c1").1 "<OutgoingMessage>",
   (forward_object_assertion (fun _ _ => .urlError "x") "http://c1").2 (.incoming []) rfl⟩

/-- C1: `ForwardClientProvider.send` issues exactly one RPC request — to
`server_url + "/im"` with the message wrapped under `message` — and, when the
request succeeds, copies every attribute of the object returned under the
response's `message` key onto the original message in place (attributes the
response object lacks are untouched) and returns the very same reference. -/
theorem client_send_spec (p : ForwardClientProvider) (net : Net) (heap : Heap) (m : Nat)
    (res : ResMap) (msg : Fields)
    (hok : jsonex_request net (p.server_url ++ "/im")
      [("message", Val.vobj (heapGet heap m))] = .ok res)
    (hmsg : dget "message" res = some (Val.vobj msg))
    (hnd : (msg.map Prod.fst).Nodup) :
    (p.send net heap m).2 =
      [⟨p.server_url ++ "/im", [("message", Val.vobj (heapGet heap m))]⟩]
    ∧ (p.send net heap m).1 = .ok (m, heapSet heap m (setattrs (heapGet heap m) msg))
    ∧ (∀ k v, dget k msg = some v → dget k (setattrs (heapGet heap m) msg) = some v)
    ∧ (∀ k, dget k msg = Option.none →
        dget k (setattrs (heapGet heap m) msg) = dget k (heapGet heap m)) := by
  refine ⟨?_, ?_, fun k v hv => dget_setattrs_of_some (heapGet heap m) msg k v hnd hv,
    fun k hv => dget_setattrs_of_none (heapGet heap m) msg k hv⟩
  · simp [ForwardClientProvider.send, hok, hmsg]
  · simp [ForwardClientProvider.send, hok, hmsg]

theorem client_send_spec_witness :
    (ForwardClientProvider.send ⟨"http://srv"⟩
      (fun _ _ => .success [("message", Val.vobj
        [("to", FVal.str "123"), ("provider", FVal.str "serverProviderA"),
         ("msgid", FVal.str "abc123")])])
      [[("to", FVal.str "123"), ("provider", FVal.none)]] 0).1 =
      .ok (0, heapSet [[("to", FVal.str "123"), ("provider", FVal.none)]] 0
        (setattrs (heapGet [[("to", FVal.str "123"), ("provider", FVal.none)]] 0)
          [("to", FVal.str "123"), ("provider", FVal.str "serverProviderA"),
           ("msgid", FVal.str "abc123")])) :=
  (client_send_spec ⟨"http://srv"⟩
    (fun _ _ => .success [("message", Val.vobj
      [("to", FVal.str "123"), ("provider", FVal.str "serverProviderA"),
       ("msgid", FVal.str "abc123")])])
    [[("to", FVal.str "123"), ("provider", FVal.none)]] 0
    [("message", Val.vobj
      [("to", FVal.str "123"), ("provider", FVal.str "serverProviderA"),
       ("msgid", FVal.str "abc123")])]
    [("to", FVal.str "123"), ("provider", FVal.str "serverProviderA"),
     ("msgid", FVal.str "abc123")]
    rfl (by decide) (by decide)).2.1

theorem forward_object_log (net : Net) (client : String) (obj : FwdObj)
    (hs : obj.isSupported = true) :
    (ForwardServerProvider.forward_object_to_client net client obj).2 =
      [clientRequest client obj] := by
  cases obj with
  | incoming f => rfl
  | status f => rfl
  | other s => simp [FwdObj.isSupported] at hs

theorem forwardLoop_all_ok (net : Net) (obj : FwdObj) (hs : obj.isSupported = true) :
    ∀ cs : List String,
      (∀ c ∈ cs, callOk (ForwardServerProvider.forward_object_to_client net c obj).1 = true) →
      forwardLoop net obj cs = (.ok (), cs.map (fun c => clientRequest c obj)) := by
  intro cs
  induction cs with
  | nil => intro _; rfl
  | cons c rest ih =>
      intro hall
      have hc := hall c (List.mem_cons_self c rest)
      have hrest := fun c' hc' => hall c' (List.mem_cons_of_mem c hc')
      cases hcall : ForwardServerProvider.forward_object_to_client net c obj with
      | mk r log =>
          cases r with
          | error e => rw [hcall] at hc; simp [callOk] at hc
          | ok v =>
              have hlog : log = [clientRequest c obj] := by
                have hl := forward_object_log net c obj hs
                rw [hcall] at hl
                exact hl
              simp [forwardLoop, hcall, ih hrest, hlog]

theorem forwardLoop_error_stops (net : Net) (obj : FwdObj) (hs : obj.isSupported = true) :
    ∀ (pre : List String) (c : String) (post : List String) (e : Val),
      (∀ c' ∈ pre, callOk (ForwardServerProvider.forward_object_to_client net c' obj).1 = true) →
      (ForwardServerProvider.forward_object_to_client net c obj).1 = .error e →
      forwardLoop net obj (pre ++ c :: post) =
        (.error e, pre.map (fun c' => clientRequest c' obj) ++ [clientRequest c obj]) := by
  intro pre
  induction pre with
  | nil =>
      intro c post e _ herr
      cases hcall : ForwardServerProvider.forward_object_to_client net c obj with
      | mk r log =>
          rw [hcall] at herr
          have herr' : r = .error e := herr
          have hlog : log = [clientRequest c obj] := by
            have hl := forward_object_log net c obj hs
            rw [hcall] at hl
            exact hl
          subst herr'
          simp [forwardLoop, hcall, hlog]
  | cons q rest ih =>
      intro c post e hpre herr
      have hq := hpre q (List.mem_cons_self q rest)
      have hrest := fun c' hc' => hpre c' (List.mem_cons_of_mem q hc')
      cases hcall : ForwardServerProvider.forward_object_to_client net q obj with
      | mk r log =>
          cases r with
          | error e' => rw [hcall] at hq; simp [callOk] at hq
          | ok v =>
              have hlog : log = [clientRequest q obj] := by
                have hl := forward_object_log net q obj hs
                rw [hcall] at hl
                exact hl
              simp [forwardLoop, hcall, hlog, ih c post e hrest herr]

/-- C3: with the default `choose_clients`, `forward` contacts exactly the
registered clients, one RPC request per client, sequentially in list order;
and when the call for the client at some position fails, no client at a later
position is contacted in that pass and the failure propagates out of
`forward`. -/
theorem forward_sequential_spec (p : ForwardServerProvider) (net : Net) (obj : FwdObj)
    (hs : obj.isSupported = true) :
    ((∀ c ∈ p.clients,
        callOk (ForwardServerProvider.forward_object_to_client net c obj).1 = true) →
      p.forward net obj = (.ok (), p.clients.map (fun c => clientRequest c obj)))
    ∧ (∀ (pre : List String) (c : String) (post : List String) (e : Val),
        p.clients = pre ++ c :: post →
        (∀ c' ∈ pre,
          callOk (ForwardServerProvider.forward_object_to_client net c' obj).1 = true) →
        (ForwardServerProvider.forward_object_to_client net c obj).1 = .error e →
        p.forward net obj =
          (.error e, pre.map (fun c' => clientRequest c' obj) ++ [clientRequest c obj])) := by
  constructor
  · intro hall
    exact forwardLoop_all_ok net obj hs p.clients hall
  · intro pre c post e hsplit hpre herr
    show forwardLoop net obj (p.choose_clients obj) = _
    rw [ForwardServerProvider.choose_clients, hsplit]
    exact forwardLoop_error_stops net obj hs pre c post e hpre herr

theorem forward_sequential_spec_witness :
    ForwardServerProvider.forward ⟨["http://c1", "http://c2", "http://c3"]⟩
      (fun _ p => .success p) (.incoming [("n", FVal.str "1")]) =
      (.ok (), [clientRequest "http://c1" (.incoming [("n", FVal.str "1")]),
                clientRequest "http://c2" (.incoming [("n", FVal.str "1")]),
                clientRequest "http://c3" (.incoming [("n", FVal.str "1")])])
    ∧ ForwardServerProvider.forward ⟨["http://c1", "http://c2", "http://c3"]⟩
      (fun u p => if u = "http://c2/im" then .urlError "down" else .success p)
      (.incoming [("n", FVal.str "1")]) =
      (.error (Val.vexc (.connectionError
          ("Connection to \"" ++ ("http://c2" ++ "/im") ++ "\" failed: " ++ "down"))),
       [clientRequest "http://c1" (.incoming [("n", FVal.str "1")]),
        clientRequest "http://c2" (.incoming [("n", FVal.str "1")])]) :=
  ⟨(forward_sequential_spec ⟨["http://c1", "http://c2", "http://c3"]⟩
      (fun _ p => .success p) (.incoming [("n", FVal.str "1")]) rfl).1 (by decide),
   (forward_sequential_spec ⟨["http://c1", "http://c2", "http://c3"]⟩
      (fun u p => if u = "http://c2/im" then .urlError "down" else .success p)
      (.incoming [("n", FVal.str "1")]) rfl).2
      ["http://c1"] "http://c2" ["http://c3"]
      (Val.vexc (.connectionError
        ("Connection to \"" ++ ("http://c2" ++ "/im") ++ "\" failed: " ++ "down")))
      rfl (by decide) rfl⟩
